import Mathlib

/-!
# The informer work loop of the operator SDK (`pkg/sdk/informer/sync.go`)

A shallow embedding of `runWorker`, `processNextItem`, `sync` and `handleErr`.

The Go code talks to three collaborators that live outside the file: the rate
limited work queue, the indexer (object cache) and the registered handler.
They are kept abstract here:

* the work queue is a record of its five operations over an arbitrary state
  type `Q`;
* the indexer and the handler are functions of the history of calls made so
  far, so that their answers may change from one call to the next;
* `DeepCopy` and `k8sutil.RuntimeObjectFromUnstructured` are parameters.

Every call to a collaborator is appended to a trace, and the results below
count the calls of that trace. A Go `error` is an `Option Err` (`none` is `nil`). Keys are
strings, as `processNextItem` asserts with `key.(string)`. Collaborators are
total functions: a call that panics or never returns is outside the model,
except for `runWorker`, whose loop is given fuel.
-/

namespace Informer

/-- Queue items are the string keys `namespace/name`. -/
abbrev Key := String

/-- The constant `maxRetries = 15` of `sync.go`; `NumRequeues` returns a Go `int`. -/
def maxRetries : Int := 15

/-- The type `sdkTypes.Event`: the object and the `Deleted` flag. -/
structure Event (RObj : Type) where
  object : RObj
  deleted : Bool
  deriving DecidableEq

/-- The three results of `Indexer.GetByKey`. -/
structure Lookup (Obj Err : Type) where
  obj : Obj
  exists_ : Bool
  err : Option Err

/-- One call made by the work loop to a collaborator (queue, indexer, handler, logger),
with the values the loop passed, and for `Get` and `NumRequeues` the value returned. -/
inductive Call (RObj Err Ctx : Type) where
  | get (key : Key) (quit : Bool)
  | done (key : Key)
  | forget (key : Key)
  | addRateLimited (key : Key)
  | numRequeues (key : Key) (count : Int)
  | getByKey (key : Key)
  | handle (ctx : Ctx) (event : Event RObj)
  | logDeleted (key : Key)
  | logSyncError (key : Key) (err : Err)
  | logDropping (key : Key) (err : Err)
  deriving DecidableEq

/-- The operations of `workqueue.RateLimitingInterface` used by the loop, over a queue
state `Q`. `get` returns the item and the shutdown flag. -/
structure WorkQueue (Q : Type) where
  get : Q → (Key × Bool) × Q
  done : Q → Key → Q
  forget : Q → Key → Q
  addRateLimited : Q → Key → Q
  numRequeues : Q → Key → Int

/-- The fields of the `informer` receiver and the package level collaborators:
the queue, the indexer behind `sharedIndexInformer`, the context and
`sdkHandler.RegisteredHandler`. The indexer and the handler see the calls made so far. -/
structure Env (Q Obj RObj Err Ctx : Type) where
  queue : WorkQueue Q
  getByKey : List (Call RObj Err Ctx) → Key → Lookup Obj Err
  deepCopy : Obj → Obj
  runtimeObjectFromUnstructured : Obj → RObj
  context : Ctx
  handle : List (Call RObj Err Ctx) → Ctx → Event RObj → Option Err

/-- The state the loop runs in: the queue and the calls made so far, oldest first. -/
structure World (Q RObj Err Ctx : Type) where
  queue : Q
  trace : List (Call RObj Err Ctx)

section Program

variable {Q Obj RObj Err Ctx : Type}

/-- Appends one call to the trace. -/
def World.record (w : World Q RObj Err Ctx) (c : Call RObj Err Ctx) : World Q RObj Err Ctx :=
  { w with trace := w.trace ++ [c] }

/-- The call `i.queue.Get()`. -/
def queueGet (env : Env Q Obj RObj Err Ctx) (w : World Q RObj Err Ctx) :
    (Key × Bool) × World Q RObj Err Ctx :=
  let r := env.queue.get w.queue
  (r.1, { queue := r.2, trace := w.trace ++ [Call.get r.1.1 r.1.2] })

/-- The call `i.queue.Done(key)`. -/
def queueDone (env : Env Q Obj RObj Err Ctx) (key : Key) (w : World Q RObj Err Ctx) :
    World Q RObj Err Ctx :=
  { queue := env.queue.done w.queue key, trace := w.trace ++ [Call.done key] }

/-- The call `i.queue.Forget(key)`. -/
def queueForget (env : Env Q Obj RObj Err Ctx) (key : Key) (w : World Q RObj Err Ctx) :
    World Q RObj Err Ctx :=
  { queue := env.queue.forget w.queue key, trace := w.trace ++ [Call.forget key] }

/-- The call `i.queue.AddRateLimited(key)`. -/
def queueAddRateLimited (env : Env Q Obj RObj Err Ctx) (key : Key) (w : World Q RObj Err Ctx) :
    World Q RObj Err Ctx :=
  { queue := env.queue.addRateLimited w.queue key, trace := w.trace ++ [Call.addRateLimited key] }

/-- The call `i.queue.NumRequeues(key)`, which reads the queue. -/
def queueNumRequeues (env : Env Q Obj RObj Err Ctx) (key : Key) (w : World Q RObj Err Ctx) :
    Int × World Q RObj Err Ctx :=
  let n := env.queue.numRequeues w.queue key
  (n, w.record (Call.numRequeues key n))

/-- The function `sync`: looks the key up, returns a lookup error as it is, returns nil
for an absent object, and otherwise hands the converted copy to the handler and returns
what the handler returns. -/
def sync (env : Env Q Obj RObj Err Ctx) (key : Key) (w : World Q RObj Err Ctx) :
    Option Err × World Q RObj Err Ctx :=
  let r := env.getByKey w.trace key
  let w1 := w.record (Call.getByKey key)
  match r.err with
  | some e => (some e, w1)
  | none =>
    if !r.exists_ then
      (none, w1.record (Call.logDeleted key))
    else
      let unstructObj := env.deepCopy r.obj
      let object := env.runtimeObjectFromUnstructured unstructObj
      let event : Event RObj := { object := object, deleted := !r.exists_ }
      let sdkCtx := env.context
      (env.handle w1.trace sdkCtx event, w1.record (Call.handle sdkCtx event))

/-- The function `handleErr`: forgets the key on success, re-enqueues it rate limited
while `NumRequeues(key) < maxRetries`, and otherwise forgets it and reports the drop. -/
def handleErr (env : Env Q Obj RObj Err Ctx) (err : Option Err) (key : Key)
    (w : World Q RObj Err Ctx) : World Q RObj Err Ctx :=
  match err with
  | none => queueForget env key w
  | some e =>
    let r := queueNumRequeues env key w
    if r.1 < maxRetries then
      queueAddRateLimited env key (r.2.record (Call.logSyncError key e))
    else
      (queueForget env key r.2).record (Call.logDropping key e)

/-- The function `processNextItem`. The deferred `Done(key)` runs when the function
returns, after `handleErr`. -/
def processNextItem (env : Env Q Obj RObj Err Ctx) (w : World Q RObj Err Ctx) :
    Bool × World Q RObj Err Ctx :=
  let g := queueGet env w
  let key := g.1.1
  let quit := g.1.2
  if quit then
    (false, g.2)
  else
    let s := sync env key g.2
    let w2 := handleErr env s.1 key s.2
    (true, queueDone env key w2)

/-- The function `runWorker`: calls `processNextItem` until it returns false. The loop
has no bound in the source; `fuel` bounds the number of iterations here and `none`
means the loop is still running when the fuel is spent. -/
def runWorker (env : Env Q Obj RObj Err Ctx) : Nat → World Q RObj Err Ctx →
    Option (World Q RObj Err Ctx)
  | 0, _ => none
  | fuel + 1, w =>
    let r := processNextItem env w
    if r.1 then runWorker env fuel r.2 else some r.2

/-- One loop iteration seen as a state change: the world `processNextItem` leaves. -/
def iteration (env : Env Q Obj RObj Err Ctx) (w : World Q RObj Err Ctx) :
    World Q RObj Err Ctx :=
  (processNextItem env w).2

/-- The calls made between the world `w` and a later world `w2`. -/
def newCalls (w w2 : World Q RObj Err Ctx) : List (Call RObj Err Ctx) :=
  w2.trace.drop w.trace.length

/-- Recognises the queue operations that change the queue: `Get`, `Done`, `Forget` and
`AddRateLimited` (`NumRequeues` only reads). -/
def Call.isQueueMutation : Call RObj Err Ctx → Bool
  | Call.get _ _ => true
  | Call.done _ => true
  | Call.forget _ => true
  | Call.addRateLimited _ => true
  | _ => false

/-- Recognises a `Done` call, for any key. -/
def Call.isDone : Call RObj Err Ctx → Bool
  | Call.done _ => true
  | _ => false

/-- Recognises a `Forget` call, for any key. -/
def Call.isForget : Call RObj Err Ctx → Bool
  | Call.forget _ => true
  | _ => false

/-- Recognises an `AddRateLimited` call, for any key. -/
def Call.isAddRateLimited : Call RObj Err Ctx → Bool
  | Call.addRateLimited _ => true
  | _ => false

/-- Recognises a handler invocation. -/
def Call.isHandle : Call RObj Err Ctx → Bool
  | Call.handle _ _ => true
  | _ => false

/-- Recognises a `Get` call, whatever it returned. -/
def Call.isGet : Call RObj Err Ctx → Bool
  | Call.get _ _ => true
  | _ => false

/-- The queue changing calls of a trace, in order. -/
def queueMutations (tr : List (Call RObj Err Ctx)) : List (Call RObj Err Ctx) :=
  tr.filter Call.isQueueMutation

/-- The key the next `Get` hands out in the world `w`. -/
def nextKey (env : Env Q Obj RObj Err Ctx) (w : World Q RObj Err Ctx) : Key :=
  (env.queue.get w.queue).1.1

/-- Whether the next `Get` reports shutdown in the world `w`. -/
def nextQuit (env : Env Q Obj RObj Err Ctx) (w : World Q RObj Err Ctx) : Bool :=
  (env.queue.get w.queue).1.2

/-- The `sync` call of the iteration that starts in the world `w`: its result and the
world it leaves. -/
def nextSync (env : Env Q Obj RObj Err Ctx) (w : World Q RObj Err Ctx) :
    Option Err × World Q RObj Err Ctx :=
  sync env (nextKey env w) (queueGet env w).2

/-- The work queue contract of the specification as far as the retry count goes:
`AddRateLimited` adds one to the count of its key, `Forget` resets it to zero, and
`Get` and `Done` leave every count as it is. -/
structure QueueContract (wq : WorkQueue Q) : Prop where
  numRequeues_addRateLimited : ∀ q k, wq.numRequeues (wq.addRateLimited q k) k =
    wq.numRequeues q k + 1
  numRequeues_forget : ∀ q k, wq.numRequeues (wq.forget q k) k = 0
  numRequeues_done : ∀ q k j, wq.numRequeues (wq.done q k) j = wq.numRequeues q j
  numRequeues_get : ∀ q j, wq.numRequeues (wq.get q).2 j = wq.numRequeues q j

/-- Modelled from the comment on `maxRetries`: the delay in milliseconds the rate limiter
gives a key that has been requeued `n` times so far, 5ms doubled `n` times. -/
def requeueDelayMs (n : Nat) : Nat := 5 * 2 ^ n

/-- Modelled from the spec: the state of the work queue, which is the client-go queue and
not part of the source file. `pending` is the queue proper, `processing` the keys handed
out by `Get` and not yet `Done`, `dirty` the keys waiting to be processed, `failures` the
retry count of each key. -/
structure RefQueue where
  pending : List Key
  processing : List Key
  dirty : List Key
  failures : Key → Nat

/-- Modelled from the spec: adding a key. A key already waiting is not added twice, and a
key in flight is only marked dirty, to be queued again by `Done`. -/
def RefQueue.add (q : RefQueue) (k : Key) : RefQueue :=
  if k ∈ q.dirty then q
  else if k ∈ q.processing then { q with dirty := k :: q.dirty }
  else { q with dirty := k :: q.dirty, pending := q.pending ++ [k] }

/-- Modelled from the spec: the work queue operations of section 4.1. The delay of
`AddRateLimited` is not modelled (the key is added at once), and `Get` on a drained
queue reports shutdown where the real queue would block until then. -/
def refQueue : WorkQueue RefQueue where
  get q :=
    match q.pending with
    | [] => (("", true), q)
    | k :: rest =>
      ((k, false), { q with pending := rest, processing := k :: q.processing,
                            dirty := q.dirty.erase k })
  done q k :=
    let q1 := { q with processing := q.processing.erase k }
    if k ∈ q1.dirty then { q1 with pending := q1.pending ++ [k] } else q1
  forget q k := { q with failures := fun j => if j = k then 0 else q.failures j }
  addRateLimited q k :=
    RefQueue.add { q with failures := fun j => if j = k then q.failures j + 1 else q.failures j } k
  numRequeues q k := (q.failures k : Int)

/-- A concrete environment over the reference queue: the indexer answers every lookup
with `lookup`, objects are strings copied and converted by the identity, and the handler
returns `results i` on its invocation number `i`, counted from zero. -/
def exampleEnv (lookup : Key → Lookup String String) (results : Nat → Option String) :
    Env RefQueue String String String Unit where
  queue := refQueue
  getByKey _ key := lookup key
  deepCopy := id
  runtimeObjectFromUnstructured := id
  context := ()
  handle tr _ _ := results (tr.countP Call.isHandle)

/-- An indexer that holds every key, the object being the key itself. -/
def presentLookup (key : Key) : Lookup String String :=
  { obj := key, exists_ := true, err := none }

/-- An indexer that holds no key. -/
def absentLookup (_ : Key) : Lookup String String :=
  { obj := "", exists_ := false, err := none }

/-- An indexer whose every lookup fails. -/
def failingLookup (_ : Key) : Lookup String String :=
  { obj := "", exists_ := false, err := some "cache fault" }

/-- A world with an empty trace whose queue holds the keys `keys`, each of them with
the retry count `retries`. -/
def exampleWorld (keys : List Key) (retries : Nat) : World RefQueue String String Unit :=
  { queue := { pending := keys, processing := [], dirty := keys, failures := fun _ => retries },
    trace := [] }

/-- The world reached from `exampleWorld [key] retries` when the first handler call
succeeds and the watch layer then adds the key to the queue again. -/
def requeuedWorld (key : Key) (retries : Nat) : World RefQueue String String Unit :=
  let w := iteration (exampleEnv presentLookup (fun i => if i = 0 then none else some "injected"))
    (exampleWorld [key] retries)
  { queue := w.queue.add key, trace := w.trace }

end Program

section Lemmas

variable {Q Obj RObj Err Ctx : Type}

theorem newCalls_of_trace_eq (w w2 : World Q RObj Err Ctx) (seg : List (Call RObj Err Ctx))
    (h : w2.trace = w.trace ++ seg) : newCalls w w2 = seg := by
  simp [newCalls, h]

theorem sync_queue (env : Env Q Obj RObj Err Ctx) (key : Key) (w : World Q RObj Err Ctx) :
    (sync env key w).2.queue = w.queue := by
  unfold sync
  simp only
  split
  · rfl
  · split <;> rfl

/-- The three shapes of a `sync` call: lookup error, absent object, object found. -/
theorem sync_cases (env : Env Q Obj RObj Err Ctx) (key : Key) (w : World Q RObj Err Ctx) :
    (∃ e, (env.getByKey w.trace key).err = some e ∧ (sync env key w).1 = some e ∧
        (sync env key w).2.trace = w.trace ++ [Call.getByKey key]) ∨
    ((env.getByKey w.trace key).err = none ∧ (env.getByKey w.trace key).exists_ = false ∧
        (sync env key w).1 = none ∧
        (sync env key w).2.trace = w.trace ++ [Call.getByKey key, Call.logDeleted key]) ∨
    ((env.getByKey w.trace key).err = none ∧ (env.getByKey w.trace key).exists_ = true ∧
        (sync env key w).1 = env.handle (w.trace ++ [Call.getByKey key]) env.context
          { object := env.runtimeObjectFromUnstructured
              (env.deepCopy (env.getByKey w.trace key).obj), deleted := false } ∧
        (sync env key w).2.trace = w.trace ++ [Call.getByKey key, Call.handle env.context
          { object := env.runtimeObjectFromUnstructured
              (env.deepCopy (env.getByKey w.trace key).obj), deleted := false }]) := by
  unfold sync
  cases herr : (env.getByKey w.trace key).err with
  | some e => left; exact ⟨e, rfl, by simp [World.record, herr], by simp [World.record, herr]⟩
  | none =>
    right
    cases hx : (env.getByKey w.trace key).exists_ with
    | false => left; simp [World.record, herr, hx]
    | true => right; simp [World.record, herr, hx]

/-- The three shapes of a `handleErr` call. -/
theorem handleErr_cases (env : Env Q Obj RObj Err Ctx) (err : Option Err) (key : Key)
    (w : World Q RObj Err Ctx) :
    (err = none ∧ handleErr env err key w =
        { queue := env.queue.forget w.queue key, trace := w.trace ++ [Call.forget key] }) ∨
    (∃ e, err = some e ∧ env.queue.numRequeues w.queue key < maxRetries ∧
        handleErr env err key w =
          { queue := env.queue.addRateLimited w.queue key,
            trace := w.trace ++ [Call.numRequeues key (env.queue.numRequeues w.queue key),
              Call.logSyncError key e, Call.addRateLimited key] }) ∨
    (∃ e, err = some e ∧ maxRetries ≤ env.queue.numRequeues w.queue key ∧
        handleErr env err key w =
          { queue := env.queue.forget w.queue key,
            trace := w.trace ++ [Call.numRequeues key (env.queue.numRequeues w.queue key),
              Call.forget key, Call.logDropping key e] }) := by
  cases err with
  | none => left; exact ⟨rfl, rfl⟩
  | some e =>
    right
    by_cases h : env.queue.numRequeues w.queue key < maxRetries
    · left
      refine ⟨e, rfl, h, ?_⟩
      simp [handleErr, queueNumRequeues, queueAddRateLimited, World.record, h]
    · right
      refine ⟨e, rfl, not_lt.mp h, ?_⟩
      simp [handleErr, queueNumRequeues, queueForget, World.record, h]

theorem sync_trace (env : Env Q Obj RObj Err Ctx) (key : Key) (w : World Q RObj Err Ctx) :
    (sync env key w).2.trace = w.trace ++ newCalls w (sync env key w).2 := by
  rcases sync_cases env key w with ⟨e, -, -, h⟩ | ⟨-, -, -, h⟩ | ⟨-, -, -, h⟩ <;>
    simp [newCalls, h]

theorem sync_mutations (env : Env Q Obj RObj Err Ctx) (key : Key) (w : World Q RObj Err Ctx) :
    queueMutations (newCalls w (sync env key w).2) = [] := by
  rcases sync_cases env key w with ⟨e, -, -, h⟩ | ⟨-, -, -, h⟩ | ⟨-, -, -, h⟩ <;>
    simp [newCalls, h, queueMutations, Call.isQueueMutation]

theorem handleErr_trace (env : Env Q Obj RObj Err Ctx) (err : Option Err) (key : Key)
    (w : World Q RObj Err Ctx) :
    (handleErr env err key w).trace = w.trace ++ newCalls w (handleErr env err key w) := by
  rcases handleErr_cases env err key w with ⟨-, h⟩ | ⟨e, -, -, h⟩ | ⟨e, -, -, h⟩ <;>
    simp [newCalls, h]

/-- The queue changing calls of `handleErr` when it forgets the key. -/
theorem handleErr_forget (env : Env Q Obj RObj Err Ctx) (err : Option Err) (key : Key)
    (w : World Q RObj Err Ctx)
    (h : err = none ∨ maxRetries ≤ env.queue.numRequeues w.queue key) :
    queueMutations (newCalls w (handleErr env err key w)) = [Call.forget key] ∧
      (handleErr env err key w).queue = env.queue.forget w.queue key := by
  rcases handleErr_cases env err key w with ⟨-, h1⟩ | ⟨e, he, hlt, -⟩ | ⟨e, -, -, h1⟩
  · simp [newCalls, h1, queueMutations, Call.isQueueMutation]
  · rcases h with h | h
    · simp [he] at h
    · exact absurd hlt (not_lt.mpr h)
  · simp [newCalls, h1, queueMutations, Call.isQueueMutation]

/-- The queue changing calls of `handleErr` when it re-enqueues the key. -/
theorem handleErr_retry (env : Env Q Obj RObj Err Ctx) (err : Option Err) (key : Key)
    (w : World Q RObj Err Ctx)
    (he : err ≠ none) (hlt : env.queue.numRequeues w.queue key < maxRetries) :
    queueMutations (newCalls w (handleErr env err key w)) = [Call.addRateLimited key] ∧
      (handleErr env err key w).queue = env.queue.addRateLimited w.queue key := by
  rcases handleErr_cases env err key w with ⟨h0, -⟩ | ⟨e, -, -, h1⟩ | ⟨e, -, hge, -⟩
  · exact absurd h0 he
  · simp [newCalls, h1, queueMutations, Call.isQueueMutation]
  · exact absurd hlt (not_lt.mpr hge)

theorem newCalls_trans (w w1 w2 : World Q RObj Err Ctx)
    (h1 : w1.trace = w.trace ++ newCalls w w1) (h2 : w2.trace = w1.trace ++ newCalls w1 w2) :
    newCalls w w2 = newCalls w w1 ++ newCalls w1 w2 := by
  have h : w2.trace = w.trace ++ (newCalls w w1 ++ newCalls w1 w2) := by
    rw [← List.append_assoc, ← h1]; exact h2
  exact newCalls_of_trace_eq w w2 _ h

theorem queueMutations_append (a b : List (Call RObj Err Ctx)) :
    queueMutations (a ++ b) = queueMutations a ++ queueMutations b := by
  simp [queueMutations]

/-- An iteration whose `Get` does not report shutdown is `sync`, then `handleErr`, then
`Done`, and its calls are those of the three in that order after the `Get`. -/
theorem processNextItem_running (env : Env Q Obj RObj Err Ctx) (w : World Q RObj Err Ctx)
    (hget : nextQuit env w = false) :
    processNextItem env w =
      (true, queueDone env (nextKey env w)
        (handleErr env (nextSync env w).1 (nextKey env w) (nextSync env w).2)) ∧
    newCalls w (iteration env w) =
      Call.get (nextKey env w) false ::
        (newCalls (queueGet env w).2 (nextSync env w).2 ++
          newCalls (nextSync env w).2
            (handleErr env (nextSync env w).1 (nextKey env w) (nextSync env w).2) ++
          [Call.done (nextKey env w)]) := by
  have hq : (env.queue.get w.queue).1.2 = false := hget
  have hp : processNextItem env w =
      (true, queueDone env (nextKey env w)
        (handleErr env (nextSync env w).1 (nextKey env w) (nextSync env w).2)) := by
    simp [processNextItem, queueGet, nextSync, nextKey, hq]
  refine ⟨hp, ?_⟩
  have hs := sync_trace env (nextKey env w) (queueGet env w).2
  have hh := handleErr_trace env (nextSync env w).1 (nextKey env w) (nextSync env w).2
  apply newCalls_of_trace_eq
  simp only [iteration, hp, queueDone]
  rw [hh]
  unfold nextSync at *
  rw [hs]
  simp [queueGet, nextKey, hq]

theorem processNextItem_stopping (env : Env Q Obj RObj Err Ctx) (w : World Q RObj Err Ctx)
    (hget : nextQuit env w = true) :
    processNextItem env w =
      (false, { queue := (env.queue.get w.queue).2,
                trace := w.trace ++ [Call.get (nextKey env w) true] }) := by
  have hq : (env.queue.get w.queue).1.2 = true := hget
  simp [processNextItem, queueGet, nextKey, hq]

theorem iteration_trace (env : Env Q Obj RObj Err Ctx) (w : World Q RObj Err Ctx) :
    (iteration env w).trace = w.trace ++ newCalls w (iteration env w) := by
  cases hget : nextQuit env w with
  | true => simp [iteration, processNextItem_stopping env w hget, newCalls]
  | false =>
    have hp := (processNextItem_running env w hget).1
    have hs := sync_trace env (nextKey env w) (queueGet env w).2
    have hh := handleErr_trace env (nextSync env w).1 (nextKey env w) (nextSync env w).2
    have hq : (env.queue.get w.queue).1.2 = false := hget
    have : (iteration env w).trace = w.trace ++ (Call.get (nextKey env w) false ::
        (newCalls (queueGet env w).2 (nextSync env w).2 ++
          newCalls (nextSync env w).2
            (handleErr env (nextSync env w).1 (nextKey env w) (nextSync env w).2) ++
          [Call.done (nextKey env w)])) := by
      simp only [iteration, hp, queueDone]
      rw [hh]
      unfold nextSync at *
      rw [hs]
      simp [queueGet, nextKey, hq]
    rw [this, newCalls_of_trace_eq w _ _ this]

/-- Two non-nil errors make `handleErr` do the same to the queue. -/
theorem handleErr_error_content_irrelevant (env : Env Q Obj RObj Err Ctx) (key : Key)
    (w : World Q RObj Err Ctx) (e1 e2 : Err) :
    queueMutations (newCalls w (handleErr env (some e1) key w)) =
      queueMutations (newCalls w (handleErr env (some e2) key w)) ∧
    (handleErr env (some e1) key w).queue = (handleErr env (some e2) key w).queue := by
  by_cases hlt : env.queue.numRequeues w.queue key < maxRetries
  · have h1 := handleErr_retry env (some e1) key w (by simp) hlt
    have h2 := handleErr_retry env (some e2) key w (by simp) hlt
    exact ⟨h1.1.trans h2.1.symm, h1.2.trans h2.2.symm⟩
  · have h1 := handleErr_forget env (some e1) key w (Or.inr (not_lt.mp hlt))
    have h2 := handleErr_forget env (some e2) key w (Or.inr (not_lt.mp hlt))
    exact ⟨h1.1.trans h2.1.symm, h1.2.trans h2.2.symm⟩

theorem iterate_trace (env : Env Q Obj RObj Err Ctx) (w : World Q RObj Err Ctx) (j : Nat) :
    ((iteration env)^[j] w).trace = w.trace ++ newCalls w ((iteration env)^[j] w) := by
  induction j with
  | zero => simp [newCalls]
  | succ j ih =>
    rw [Function.iterate_succ_apply']
    have h := iteration_trace env ((iteration env)^[j] w)
    rw [newCalls_trans w _ _ ih h, ← List.append_assoc, ← ih]
    exact h

theorem newCalls_iterate_succ (env : Env Q Obj RObj Err Ctx) (w : World Q RObj Err Ctx)
    (j : Nat) :
    newCalls w ((iteration env)^[j + 1] w) =
      newCalls w ((iteration env)^[j] w) ++
        newCalls ((iteration env)^[j] w) ((iteration env)^[j + 1] w) := by
  have h := iteration_trace env ((iteration env)^[j] w)
  rw [← Function.iterate_succ_apply' (iteration env) j w] at h
  exact newCalls_trans w _ _ (iterate_trace env w j) h

theorem countP_queueMutations (p : Call RObj Err Ctx → Bool)
    (hp : ∀ c, p c = true → c.isQueueMutation = true) (tr : List (Call RObj Err Ctx)) :
    tr.countP p = (queueMutations tr).countP p := by
  induction tr with
  | nil => rfl
  | cons c t ih =>
    unfold queueMutations at ih ⊢
    by_cases hc : c.isQueueMutation = true
    · rw [List.filter_cons_of_pos hc, List.countP_cons, List.countP_cons, ih]
    · rw [List.filter_cons_of_neg hc, List.countP_cons, ih]
      have : p c = false := by
        cases hpc : p c with
        | false => rfl
        | true => exact absurd (hp c hpc) hc
      simp [this]

theorem countP_isAddRateLimited (tr : List (Call RObj Err Ctx)) :
    tr.countP Call.isAddRateLimited = (queueMutations tr).countP Call.isAddRateLimited :=
  countP_queueMutations _ (by intro c hc; cases c <;> simp_all [Call.isAddRateLimited,
    Call.isQueueMutation]) tr

theorem countP_isForget (tr : List (Call RObj Err Ctx)) :
    tr.countP Call.isForget = (queueMutations tr).countP Call.isForget :=
  countP_queueMutations _ (by intro c hc; cases c <;> simp_all [Call.isForget,
    Call.isQueueMutation]) tr

theorem countP_isGet (tr : List (Call RObj Err Ctx)) :
    tr.countP Call.isGet = (queueMutations tr).countP Call.isGet :=
  countP_queueMutations _ (by intro c hc; cases c <;> simp_all [Call.isGet,
    Call.isQueueMutation]) tr

/-- The queue changing calls of a running iteration, given those of its `handleErr`. -/
theorem iteration_mutations (env : Env Q Obj RObj Err Ctx) (w : World Q RObj Err Ctx)
    (hget : nextQuit env w = false) (c : Call RObj Err Ctx)
    (hc : queueMutations (newCalls (nextSync env w).2
      (handleErr env (nextSync env w).1 (nextKey env w) (nextSync env w).2)) = [c]) :
    queueMutations (newCalls w (iteration env w)) =
      [Call.get (nextKey env w) false, c, Call.done (nextKey env w)] := by
  rw [(processNextItem_running env w hget).2]
  have hm := sync_mutations env (nextKey env w) (queueGet env w).2
  rw [← List.singleton_append, queueMutations_append, queueMutations_append,
    queueMutations_append, hc]
  unfold nextSync
  rw [hm]
  rfl

theorem nextSync_queue (env : Env Q Obj RObj Err Ctx) (w : World Q RObj Err Ctx) :
    (nextSync env w).2.queue = (env.queue.get w.queue).2 := by
  unfold nextSync
  rw [sync_queue]
  rfl

theorem iteration_queue (env : Env Q Obj RObj Err Ctx) (w : World Q RObj Err Ctx)
    (hget : nextQuit env w = false) :
    (iteration env w).queue = env.queue.done
      (handleErr env (nextSync env w).1 (nextKey env w) (nextSync env w).2).queue
      (nextKey env w) := by
  simp [iteration, (processNextItem_running env w hget).1, queueDone]

/-- A failed attempt with the retry count under `maxRetries`: the key is re-enqueued and
its count goes up by one. -/
theorem iteration_failed_retry (env : Env Q Obj RObj Err Ctx) (hq : QueueContract env.queue)
    (key : Key) (w : World Q RObj Err Ctx)
    (hget : (env.queue.get w.queue).1 = (key, false))
    (hs : (nextSync env w).1 ≠ none)
    (hlt : env.queue.numRequeues w.queue key < maxRetries) :
    queueMutations (newCalls w (iteration env w)) =
      [Call.get key false, Call.addRateLimited key, Call.done key] ∧
    env.queue.numRequeues (iteration env w).queue key =
      env.queue.numRequeues w.queue key + 1 := by
  have hk : nextKey env w = key := by simp [nextKey, hget]
  have hquit : nextQuit env w = false := by simp [nextQuit, hget]
  have hn : env.queue.numRequeues (nextSync env w).2.queue key =
      env.queue.numRequeues w.queue key := by
    rw [nextSync_queue, hq.numRequeues_get]
  have hr := handleErr_retry env (nextSync env w).1 key (nextSync env w).2 hs (by rw [hn]; exact hlt)
  have hm := iteration_mutations env w hquit (Call.addRateLimited key) (by rw [hk]; exact hr.1)
  rw [hk] at hm
  refine ⟨hm, ?_⟩
  rw [iteration_queue env w hquit, hk, hq.numRequeues_done, hr.2,
    hq.numRequeues_addRateLimited, hn]

/-- An attempt that succeeds, or fails with the retry count at `maxRetries` or more: the
key is forgotten and its count is zero afterwards. -/
theorem iteration_forget (env : Env Q Obj RObj Err Ctx) (hq : QueueContract env.queue)
    (key : Key) (w : World Q RObj Err Ctx)
    (hget : (env.queue.get w.queue).1 = (key, false))
    (h : (nextSync env w).1 = none ∨ maxRetries ≤ env.queue.numRequeues w.queue key) :
    queueMutations (newCalls w (iteration env w)) =
      [Call.get key false, Call.forget key, Call.done key] ∧
    env.queue.numRequeues
      (handleErr env (nextSync env w).1 key (nextSync env w).2).queue key = 0 ∧
    env.queue.numRequeues (iteration env w).queue key = 0 := by
  have hk : nextKey env w = key := by simp [nextKey, hget]
  have hquit : nextQuit env w = false := by simp [nextQuit, hget]
  have hn : env.queue.numRequeues (nextSync env w).2.queue key =
      env.queue.numRequeues w.queue key := by
    rw [nextSync_queue, hq.numRequeues_get]
  have hr := handleErr_forget env (nextSync env w).1 key (nextSync env w).2
    (by rw [hn]; exact h)
  have hm := iteration_mutations env w hquit (Call.forget key) (by rw [hk]; exact hr.1)
  rw [hk] at hm
  refine ⟨hm, ?_, ?_⟩
  · rw [hr.2, hq.numRequeues_forget]
  · rw [iteration_queue env w hquit, hk, hq.numRequeues_done, hr.2, hq.numRequeues_forget]

/-- A streak of failed attempts on a fresh key: while no more than `maxRetries` attempts
have failed, each one re-enqueued the key, none forgot it, and the retry count is the
number of failed attempts. -/
theorem failing_streak (env : Env Q Obj RObj Err Ctx) (hq : QueueContract env.queue)
    (key : Key) (w : World Q RObj Err Ctx) (m : Nat) (hm : m ≤ 15)
    (h0 : env.queue.numRequeues w.queue key = 0)
    (hdeliv : ∀ j, j < m → (env.queue.get ((iteration env)^[j] w).queue).1 = (key, false))
    (hfail : ∀ j, j < m → (nextSync env ((iteration env)^[j] w)).1 ≠ none) :
    ∀ j, j ≤ m →
      env.queue.numRequeues ((iteration env)^[j] w).queue key = (j : Int) ∧
      (newCalls w ((iteration env)^[j] w)).countP Call.isAddRateLimited = j ∧
      (newCalls w ((iteration env)^[j] w)).countP Call.isForget = 0 := by
  intro j
  induction j with
  | zero => intro _; simp [h0, newCalls]
  | succ j ih =>
    intro hj
    obtain ⟨hc, ha, hf⟩ := ih (by omega)
    have hlt : env.queue.numRequeues ((iteration env)^[j] w).queue key < maxRetries := by
      rw [hc]; unfold maxRetries; omega
    have hstep := iteration_failed_retry env hq key ((iteration env)^[j] w)
      (hdeliv j (by omega)) (hfail j (by omega)) hlt
    rw [← Function.iterate_succ_apply' (iteration env) j w] at hstep
    refine ⟨?_, ?_, ?_⟩
    · rw [hstep.2, hc]; push_cast; ring
    · rw [newCalls_iterate_succ, List.countP_append, ha, countP_isAddRateLimited
        (newCalls _ _), hstep.1]
      rfl
    · rw [newCalls_iterate_succ, List.countP_append, hf, countP_isForget
        (newCalls _ _), hstep.1]
      rfl

theorem refQueue_contract : QueueContract refQueue := by
  constructor
  · intro q k
    simp only [refQueue, RefQueue.add]
    split
    · simp
    · split <;> simp
  · intro q k
    simp [refQueue]
  · intro q k j
    simp only [refQueue]
    split <;> rfl
  · intro q j
    simp only [refQueue]
    split <;> rfl

theorem handleErr_handle_count (env : Env Q Obj RObj Err Ctx) (err : Option Err) (key : Key)
    (w : World Q RObj Err Ctx) :
    (newCalls w (handleErr env err key w)).countP Call.isHandle = 0 := by
  rcases handleErr_cases env err key w with ⟨-, h⟩ | ⟨e, -, -, h⟩ | ⟨e, -, -, h⟩ <;>
    simp [newCalls, h, Call.isHandle]

/-- A running iteration that finds the object invokes the handler exactly once. -/
theorem iteration_handle_count (env : Env Q Obj RObj Err Ctx) (w : World Q RObj Err Ctx)
    (hget : nextQuit env w = false)
    (hl : (env.getByKey (queueGet env w).2.trace (nextKey env w)).err = none)
    (hx : (env.getByKey (queueGet env w).2.trace (nextKey env w)).exists_ = true) :
    (newCalls w (iteration env w)).countP Call.isHandle = 1 := by
  rw [(processNextItem_running env w hget).2, List.countP_cons, List.countP_append,
    List.countP_append, handleErr_handle_count]
  rcases sync_cases env (nextKey env w) (queueGet env w).2
    with ⟨e, he, -, -⟩ | ⟨-, hx2, -, -⟩ | ⟨-, -, -, h2⟩
  · rw [hl] at he; exact absurd he (by simp)
  · rw [hx] at hx2; exact absurd hx2 (by simp)
  · unfold nextSync
    rw [newCalls_of_trace_eq _ _ _ h2]
    simp [Call.isHandle]

/-- Every iteration, running or stopping, calls `Get` exactly once. -/
theorem iteration_get_count (env : Env Q Obj RObj Err Ctx) (w : World Q RObj Err Ctx) :
    (newCalls w (iteration env w)).countP Call.isGet = 1 := by
  cases hget : nextQuit env w with
  | true =>
    simp [iteration, processNextItem_stopping env w hget, newCalls, Call.isGet]
  | false =>
    rw [countP_isGet]
    rcases handleErr_cases env (nextSync env w).1 (nextKey env w) (nextSync env w).2
      with ⟨h0, -⟩ | ⟨e, he, hlt, -⟩ | ⟨e, -, hge, -⟩
    · rw [iteration_mutations env w hget _ (handleErr_forget env _ _ _ (Or.inl h0)).1]
      rfl
    · rw [iteration_mutations env w hget _
        (handleErr_retry env _ _ _ (by rw [he]; simp) hlt).1]
      rfl
    · rw [iteration_mutations env w hget _ (handleErr_forget env _ _ _ (Or.inr hge)).1]
      rfl

theorem iterate_get_count (env : Env Q Obj RObj Err Ctx) (w : World Q RObj Err Ctx)
    (j : Nat) : (newCalls w ((iteration env)^[j] w)).countP Call.isGet = j := by
  induction j with
  | zero => simp [newCalls]
  | succ j ih =>
    rw [newCalls_iterate_succ, List.countP_append, ih, Function.iterate_succ_apply',
      iteration_get_count]

theorem runWorker_returns (env : Env Q Obj RObj Err Ctx) (m : Nat) :
    ∀ w : World Q RObj Err Ctx,
      (∀ j, j < m → nextQuit env ((iteration env)^[j] w) = false) →
      nextQuit env ((iteration env)^[m] w) = true →
      ∀ fuel, m < fuel → runWorker env fuel w = some ((iteration env)^[m + 1] w) := by
  induction m with
  | zero =>
    intro w _ hstop fuel hfuel
    obtain ⟨f, rfl⟩ : ∃ f, fuel = f + 1 := ⟨fuel - 1, by omega⟩
    have hp := processNextItem_stopping env w hstop
    simp [runWorker, iteration, hp]
  | succ m ih =>
    intro w hrun hstop fuel hfuel
    obtain ⟨f, rfl⟩ : ∃ f, fuel = f + 1 := ⟨fuel - 1, by omega⟩
    have h0 : nextQuit env w = false := hrun 0 (by omega)
    have hp := (processNextItem_running env w h0).1
    have hrec := ih (iteration env w)
      (fun j hj => by
        rw [← Function.iterate_succ_apply (iteration env) j w]; exact hrun (j + 1) (by omega))
      (by rw [← Function.iterate_succ_apply (iteration env) m w]; exact hstop)
      f (by omega)
    rw [← Function.iterate_succ_apply (iteration env) (m + 1) w] at hrec
    rw [← hrec]
    simp [runWorker, iteration, hp]

theorem runWorker_still_running (env : Env Q Obj RObj Err Ctx) (fuel : Nat) :
    ∀ w : World Q RObj Err Ctx,
      (∀ j, j < fuel → nextQuit env ((iteration env)^[j] w) = false) →
      runWorker env fuel w = none := by
  induction fuel with
  | zero => intro w _; rfl
  | succ f ih =>
    intro w hrun
    have h0 : nextQuit env w = false := hrun 0 (by omega)
    have hp := (processNextItem_running env w h0).1
    have hrec := ih (iteration env w)
      (fun j hj => by
        rw [← Function.iterate_succ_apply (iteration env) j w]; exact hrun (j + 1) (by omega))
    rw [← hrec]
    simp [runWorker, iteration, hp]

theorem runWorker_returned (env : Env Q Obj RObj Err Ctx) (fuel : Nat) :
    ∀ w w2 : World Q RObj Err Ctx, runWorker env fuel w = some w2 →
      ∃ m, m < fuel ∧ (∀ j, j < m → nextQuit env ((iteration env)^[j] w) = false) ∧
        nextQuit env ((iteration env)^[m] w) = true ∧ w2 = (iteration env)^[m + 1] w := by
  induction fuel with
  | zero => intro w w2 h; simp [runWorker] at h
  | succ f ih =>
    intro w w2 h
    cases hget : nextQuit env w with
    | true =>
      have hp := processNextItem_stopping env w hget
      refine ⟨0, by omega, fun j hj => absurd hj (by omega), hget, ?_⟩
      simp [runWorker, hp] at h
      simp [iteration, hp, h]
    | false =>
      have hp := (processNextItem_running env w hget).1
      have h2 : runWorker env f (iteration env w) = some w2 := by
        rw [← h]; simp [runWorker, iteration, hp]
      obtain ⟨m, hm, hrun, hstop, heq⟩ := ih (iteration env w) w2 h2
      refine ⟨m + 1, by omega, ?_, ?_, ?_⟩
      · intro j hj
        cases j with
        | zero => exact hget
        | succ j =>
          rw [Function.iterate_succ_apply]; exact hrun j (by omega)
      · rw [Function.iterate_succ_apply]; exact hstop
      · rw [Function.iterate_succ_apply]; exact heq

end Lemmas

section Claims

variable {Q Obj RObj Err Ctx : Type}

/-- C1: `handleErr` makes exactly one queue changing call, on the key it was given. With
a nil error that call is `Forget(key)`; with a non-nil error and
`NumRequeues(key) < maxRetries` it is `AddRateLimited(key)`; with a non-nil error and
`NumRequeues(key) >= maxRetries` it is `Forget(key)`. The calls it makes extend the
trace, and two non-nil errors lead to the same queue calls and the same queue. -/
theorem handleErr_one_queue_operation (env : Env Q Obj RObj Err Ctx) (err : Option Err)
    (key : Key) (w : World Q RObj Err Ctx) :
    (handleErr env err key w).trace = w.trace ++ newCalls w (handleErr env err key w) ∧
    (err = none →
      queueMutations (newCalls w (handleErr env err key w)) = [Call.forget key] ∧
      (handleErr env err key w).queue = env.queue.forget w.queue key) ∧
    (err ≠ none → env.queue.numRequeues w.queue key < maxRetries →
      queueMutations (newCalls w (handleErr env err key w)) = [Call.addRateLimited key] ∧
      (handleErr env err key w).queue = env.queue.addRateLimited w.queue key) ∧
    (err ≠ none → maxRetries ≤ env.queue.numRequeues w.queue key →
      queueMutations (newCalls w (handleErr env err key w)) = [Call.forget key] ∧
      (handleErr env err key w).queue = env.queue.forget w.queue key) ∧
    (∀ e1 e2 : Err,
      queueMutations (newCalls w (handleErr env (some e1) key w)) =
        queueMutations (newCalls w (handleErr env (some e2) key w)) ∧
      (handleErr env (some e1) key w).queue = (handleErr env (some e2) key w).queue) := by
  refine ⟨handleErr_trace env err key w, ?_, ?_, ?_, ?_⟩
  · intro h
    exact handleErr_forget env err key w (Or.inl h)
  · intro he hlt
    exact handleErr_retry env err key w he hlt
  · intro _ hge
    exact handleErr_forget env err key w (Or.inr hge)
  · intro e1 e2
    exact handleErr_error_content_irrelevant env key w e1 e2

/-- C5: when the lookup succeeds and reports that the object does not exist, `sync`
returns nil, makes the lookup and one informational log call and no handler call (so no
event at all is built for the handler), leaves the queue alone, and the `handleErr` that
follows calls `Forget(key)` and nothing else on the queue. -/
theorem sync_absent_is_noop (env : Env Q Obj RObj Err Ctx) (key : Key)
    (w : World Q RObj Err Ctx)
    (hl : (env.getByKey w.trace key).err = none)
    (hx : (env.getByKey w.trace key).exists_ = false) :
    (sync env key w).1 = none ∧
    newCalls w (sync env key w).2 = [Call.getByKey key, Call.logDeleted key] ∧
    (newCalls w (sync env key w).2).countP Call.isHandle = 0 ∧
    (sync env key w).2.queue = w.queue ∧
    queueMutations (newCalls (sync env key w).2
      (handleErr env (sync env key w).1 key (sync env key w).2)) = [Call.forget key] ∧
    (handleErr env (sync env key w).1 key (sync env key w).2).queue =
      env.queue.forget w.queue key := by
  rcases sync_cases env key w with ⟨e, he, -, -⟩ | ⟨-, -, h1, h2⟩ | ⟨-, hx2, -, -⟩
  · rw [hl] at he; exact absurd he (by simp)
  · have hn := newCalls_of_trace_eq w _ _ h2
    have hf := handleErr_forget env (sync env key w).1 key (sync env key w).2 (Or.inl h1)
    refine ⟨h1, hn, ?_, sync_queue env key w, hf.1, ?_⟩
    · rw [hn]; simp [Call.isHandle]
    · rw [hf.2, sync_queue]
  · rw [hx] at hx2; exact absurd hx2 (by simp)

/-- C6: when the lookup succeeds and reports that the object exists, `sync` makes the
lookup and then exactly one handler call, with the informer context and the event whose
object is the conversion of the deep copy of the cached object and whose `Deleted` flag
is false, and returns what the handler returned on that call. Whatever the lookup says,
no event `sync` passes to the handler has `Deleted` set. -/
theorem sync_found_invokes_handler_once (env : Env Q Obj RObj Err Ctx) (key : Key)
    (w : World Q RObj Err Ctx)
    (hl : (env.getByKey w.trace key).err = none)
    (hx : (env.getByKey w.trace key).exists_ = true) :
    newCalls w (sync env key w).2 =
      [Call.getByKey key, Call.handle env.context
        { object := env.runtimeObjectFromUnstructured
            (env.deepCopy (env.getByKey w.trace key).obj), deleted := false }] ∧
    (newCalls w (sync env key w).2).countP Call.isHandle = 1 ∧
    (sync env key w).1 = env.handle (w.trace ++ [Call.getByKey key]) env.context
        { object := env.runtimeObjectFromUnstructured
            (env.deepCopy (env.getByKey w.trace key).obj), deleted := false } ∧
    (sync env key w).2.queue = w.queue ∧
    (∀ (key2 : Key) (w2 : World Q RObj Err Ctx) (ctx : Ctx) (ev : Event RObj),
      Call.handle ctx ev ∈ newCalls w2 (sync env key2 w2).2 → ev.deleted = false) := by
  refine ⟨?_, ?_, ?_, sync_queue env key w, ?_⟩
  · rcases sync_cases env key w with ⟨e, he, -, -⟩ | ⟨-, hx2, -, -⟩ | ⟨-, -, -, h2⟩
    · rw [hl] at he; exact absurd he (by simp)
    · rw [hx] at hx2; exact absurd hx2 (by simp)
    · exact newCalls_of_trace_eq w _ _ h2
  · rcases sync_cases env key w with ⟨e, he, -, -⟩ | ⟨-, hx2, -, -⟩ | ⟨-, -, -, h2⟩
    · rw [hl] at he; exact absurd he (by simp)
    · rw [hx] at hx2; exact absurd hx2 (by simp)
    · rw [newCalls_of_trace_eq w _ _ h2]; simp [Call.isHandle]
  · rcases sync_cases env key w with ⟨e, he, -, -⟩ | ⟨-, hx2, -, -⟩ | ⟨-, -, h1, -⟩
    · rw [hl] at he; exact absurd he (by simp)
    · rw [hx] at hx2; exact absurd hx2 (by simp)
    · exact h1
  · intro key2 w2 ctx ev hmem
    rcases sync_cases env key2 w2 with ⟨e, -, -, h2⟩ | ⟨-, -, -, h2⟩ | ⟨-, -, -, h2⟩
    · rw [newCalls_of_trace_eq w2 _ _ h2] at hmem; simp at hmem
    · rw [newCalls_of_trace_eq w2 _ _ h2] at hmem; simp at hmem
    · rw [newCalls_of_trace_eq w2 _ _ h2] at hmem
      simp at hmem
      rw [hmem.2]

/-- C7: when the lookup returns a non-nil error `e`, whatever object and `exists` flag
come with it, `sync` returns `e`, makes the lookup call only (no handler call) and
leaves the queue alone. The `handleErr` that follows re-enqueues the key with
`AddRateLimited` when `NumRequeues(key) < maxRetries` and forgets it otherwise, and does
to the queue exactly what it does for any handler error `e2` in the same world. -/
theorem sync_lookup_error_propagates (env : Env Q Obj RObj Err Ctx) (key : Key)
    (w : World Q RObj Err Ctx) (e : Err)
    (hl : (env.getByKey w.trace key).err = some e) :
    (sync env key w).1 = some e ∧
    newCalls w (sync env key w).2 = [Call.getByKey key] ∧
    (newCalls w (sync env key w).2).countP Call.isHandle = 0 ∧
    (sync env key w).2.queue = w.queue ∧
    (env.queue.numRequeues w.queue key < maxRetries →
      queueMutations (newCalls (sync env key w).2
        (handleErr env (sync env key w).1 key (sync env key w).2)) =
          [Call.addRateLimited key]) ∧
    (maxRetries ≤ env.queue.numRequeues w.queue key →
      queueMutations (newCalls (sync env key w).2
        (handleErr env (sync env key w).1 key (sync env key w).2)) = [Call.forget key]) ∧
    (∀ e2 : Err,
      queueMutations (newCalls (sync env key w).2
        (handleErr env (sync env key w).1 key (sync env key w).2)) =
      queueMutations (newCalls (sync env key w).2
        (handleErr env (some e2) key (sync env key w).2)) ∧
      (handleErr env (sync env key w).1 key (sync env key w).2).queue =
        (handleErr env (some e2) key (sync env key w).2).queue) := by
  have hq := sync_queue env key w
  rcases sync_cases env key w with ⟨e1, he, h1, h2⟩ | ⟨he, -, -, -⟩ | ⟨he, -, -, -⟩
  · rw [hl] at he
    have hee : e = e1 := Option.some.inj he
    subst hee
    have hn := newCalls_of_trace_eq w _ _ h2
    refine ⟨h1, hn, ?_, hq, ?_, ?_, ?_⟩
    · rw [hn]; simp [Call.isHandle]
    · intro hlt
      rw [← hq] at hlt
      exact (handleErr_retry env _ key _ (by rw [h1]; simp) hlt).1
    · intro hge
      rw [← hq] at hge
      exact (handleErr_forget env _ key _ (Or.inr hge)).1
    · intro e2
      rw [h1]
      exact ((handleErr_error_content_irrelevant env key (sync env key w).2) e e2)
  · rw [hl] at he; exact absurd he (by simp)
  · rw [hl] at he; exact absurd he (by simp)

/-- C8: in every `processNextItem` whose `Get` hands out a key `k` without reporting
shutdown, the function returns true, `Done(k)` is its last call and its only `Done`
call, and the queue changing calls of the iteration are `Get`, then the one call of
`handleErr` on `k`, then `Done(k)`: `Forget(k)` when `sync` returned nil,
`AddRateLimited(k)` when it failed with the retry count under `maxRetries`, `Forget(k)`
when it failed with the count at `maxRetries` or more. -/
theorem processNextItem_done_exactly_once (env : Env Q Obj RObj Err Ctx)
    (w : World Q RObj Err Ctx) (hget : nextQuit env w = false) :
    (processNextItem env w).1 = true ∧
    (iteration env w).trace = w.trace ++ newCalls w (iteration env w) ∧
    (newCalls w (iteration env w)).getLast? = some (Call.done (nextKey env w)) ∧
    (newCalls w (iteration env w)).countP Call.isDone = 1 ∧
    ((nextSync env w).1 = none →
      queueMutations (newCalls w (iteration env w)) =
        [Call.get (nextKey env w) false, Call.forget (nextKey env w),
          Call.done (nextKey env w)]) ∧
    ((nextSync env w).1 ≠ none →
      env.queue.numRequeues (nextSync env w).2.queue (nextKey env w) < maxRetries →
      queueMutations (newCalls w (iteration env w)) =
        [Call.get (nextKey env w) false, Call.addRateLimited (nextKey env w),
          Call.done (nextKey env w)]) ∧
    ((nextSync env w).1 ≠ none →
      maxRetries ≤ env.queue.numRequeues (nextSync env w).2.queue (nextKey env w) →
      queueMutations (newCalls w (iteration env w)) =
        [Call.get (nextKey env w) false, Call.forget (nextKey env w),
          Call.done (nextKey env w)]) := by
  obtain ⟨hp, hn⟩ := processNextItem_running env w hget
  have hm := sync_mutations env (nextKey env w) (queueGet env w).2
  have hmut : ∀ c, queueMutations (newCalls (nextSync env w).2
      (handleErr env (nextSync env w).1 (nextKey env w) (nextSync env w).2)) = [c] →
      queueMutations (newCalls w (iteration env w)) =
        [Call.get (nextKey env w) false, c, Call.done (nextKey env w)] := by
    intro c hc
    rw [hn]
    have : queueMutations (Call.get (nextKey env w) false ::
        (newCalls (queueGet env w).2 (nextSync env w).2 ++
          newCalls (nextSync env w).2
            (handleErr env (nextSync env w).1 (nextKey env w) (nextSync env w).2) ++
          [Call.done (nextKey env w)])) =
        Call.get (nextKey env w) false ::
          (queueMutations (newCalls (queueGet env w).2 (nextSync env w).2) ++
            queueMutations (newCalls (nextSync env w).2
              (handleErr env (nextSync env w).1 (nextKey env w) (nextSync env w).2)) ++
            [Call.done (nextKey env w)]) := by
      simp [queueMutations, Call.isQueueMutation]
    rw [this, hc]
    unfold nextSync
    rw [hm]
    rfl
  have hdone : ∀ tr : List (Call RObj Err Ctx), tr.countP Call.isDone
      = (queueMutations tr).countP Call.isDone := by
    intro tr
    induction tr with
    | nil => rfl
    | cons c t ih =>
      cases c <;> simp [queueMutations, Call.isQueueMutation, Call.isDone, List.countP_cons,
        List.filter_cons] at ih ⊢ <;> exact ih
  have hone : ∃ c, c.isDone = false ∧ queueMutations (newCalls w (iteration env w)) =
      [Call.get (nextKey env w) false, c, Call.done (nextKey env w)] := by
    rcases handleErr_cases env (nextSync env w).1 (nextKey env w) (nextSync env w).2
      with ⟨h0, -⟩ | ⟨e, he, hlt, -⟩ | ⟨e, -, hge, -⟩
    · exact ⟨Call.forget (nextKey env w), rfl,
        hmut _ (handleErr_forget env _ _ _ (Or.inl h0)).1⟩
    · exact ⟨Call.addRateLimited (nextKey env w), rfl,
        hmut _ (handleErr_retry env _ _ _ (by rw [he]; simp) hlt).1⟩
    · exact ⟨Call.forget (nextKey env w), rfl,
        hmut _ (handleErr_forget env _ _ _ (Or.inr hge)).1⟩
  refine ⟨by rw [hp], iteration_trace env w, ?_, ?_, ?_, ?_, ?_⟩
  · rw [hn, ← List.cons_append]
    exact List.getLast?_concat _
  · obtain ⟨c, hc, hq⟩ := hone
    rw [hdone, hq]
    simp only [List.countP_cons, List.countP_nil, hc]
    rfl
  · intro h0
    exact hmut _ (handleErr_forget env _ _ _ (Or.inl h0)).1
  · intro he hlt
    exact hmut _ (handleErr_retry env _ _ _ he hlt).1
  · intro _ hge
    exact hmut _ (handleErr_forget env _ _ _ (Or.inr hge)).1

/-- C9: `processNextItem` returns false exactly when `Get` reports shutdown, and then
the `Get` is its only call: the queue is the one `Get` left and nothing else is appended
to the trace. For a run in which the first `m` calls of `Get` hand out keys and the next
one reports shutdown, `runWorker` returns with any fuel above `m` and is still running
with less, each of the `m` iterations is `sync`, then `handleErr`, then `Done` on the key
handed out, the shutdown `Get` is the last call of the run, and `Get` was called `m + 1`
times in all. Whenever `runWorker` returns, it does so at the first shutdown signal. -/
theorem runWorker_cooperative_shutdown (env : Env Q Obj RObj Err Ctx) :
    (∀ w : World Q RObj Err Ctx, (processNextItem env w).1 = false ↔ nextQuit env w = true) ∧
    (∀ w : World Q RObj Err Ctx, nextQuit env w = true →
      (processNextItem env w).2 =
        { queue := (env.queue.get w.queue).2,
          trace := w.trace ++ [Call.get (nextKey env w) true] }) ∧
    (∀ (m : Nat) (w : World Q RObj Err Ctx),
      (∀ j, j < m → nextQuit env ((iteration env)^[j] w) = false) →
      nextQuit env ((iteration env)^[m] w) = true →
        (∀ fuel, m < fuel → runWorker env fuel w = some ((iteration env)^[m + 1] w)) ∧
        (∀ fuel, fuel ≤ m → runWorker env fuel w = none) ∧
        (∀ j, j < m → (iteration env)^[j + 1] w =
          queueDone env (nextKey env ((iteration env)^[j] w))
            (handleErr env (nextSync env ((iteration env)^[j] w)).1
              (nextKey env ((iteration env)^[j] w))
              (nextSync env ((iteration env)^[j] w)).2)) ∧
        ((iteration env)^[m + 1] w).trace = ((iteration env)^[m] w).trace ++
          [Call.get (nextKey env ((iteration env)^[m] w)) true] ∧
        (newCalls w ((iteration env)^[m + 1] w)).countP Call.isGet = m + 1) ∧
    (∀ (fuel : Nat) (w w2 : World Q RObj Err Ctx), runWorker env fuel w = some w2 →
      ∃ m, m < fuel ∧ (∀ j, j < m → nextQuit env ((iteration env)^[j] w) = false) ∧
        nextQuit env ((iteration env)^[m] w) = true ∧ w2 = (iteration env)^[m + 1] w) := by
  refine ⟨?_, ?_, ?_, ?_⟩
  · intro w
    cases hget : nextQuit env w with
    | true => simp [processNextItem_stopping env w hget]
    | false => simp [(processNextItem_running env w hget).1]
  · intro w hget
    rw [processNextItem_stopping env w hget]
  · intro m w hrun hstop
    refine ⟨runWorker_returns env m w hrun hstop, ?_, ?_, ?_, iterate_get_count env w (m + 1)⟩
    · intro fuel hfuel
      exact runWorker_still_running env fuel w (fun j hj => hrun j (by omega))
    · intro j hj
      rw [Function.iterate_succ_apply']
      simp only [iteration]
      rw [(processNextItem_running env _ (hrun j hj)).1]
    · rw [Function.iterate_succ_apply']
      simp only [iteration]
      rw [processNextItem_stopping env _ hstop]
  · intro fuel w w2 h
    exact runWorker_returned env fuel w w2 h

/-- C2, as amended: under the work queue contract, for a key that starts with retry
count 0, is handed out by `Get` at each of the iterations looked at and whose `sync`
fails every time, each of the first `maxRetries` = 15 failed attempts re-enqueues the key
with `AddRateLimited` and none of them calls `Forget`, so the count is 15 after them; the
16th failed attempt drops the key (`Forget`, no `AddRateLimited`), and the requeue count
is 0 right after that `Forget` and at the end of the iteration. -/
theorem key_dropped_at_sixteenth_failure (env : Env Q Obj RObj Err Ctx)
    (hq : QueueContract env.queue) (key : Key) (w : World Q RObj Err Ctx)
    (h0 : env.queue.numRequeues w.queue key = 0)
    (hdeliv : ∀ j, j ≤ 15 → (env.queue.get ((iteration env)^[j] w).queue).1 = (key, false))
    (hfail : ∀ j, j ≤ 15 → (nextSync env ((iteration env)^[j] w)).1 ≠ none) :
    (∀ j, j < 15 →
      queueMutations (newCalls ((iteration env)^[j] w) ((iteration env)^[j + 1] w)) =
        [Call.get key false, Call.addRateLimited key, Call.done key]) ∧
    (newCalls w ((iteration env)^[15] w)).countP Call.isForget = 0 ∧
    env.queue.numRequeues ((iteration env)^[15] w).queue key = 15 ∧
    queueMutations (newCalls ((iteration env)^[15] w) ((iteration env)^[16] w)) =
      [Call.get key false, Call.forget key, Call.done key] ∧
    env.queue.numRequeues
      (handleErr env (nextSync env ((iteration env)^[15] w)).1 key
        (nextSync env ((iteration env)^[15] w)).2).queue key = 0 ∧
    env.queue.numRequeues ((iteration env)^[16] w).queue key = 0 := by
  have hst := failing_streak env hq key w 15 (le_refl 15) h0
    (fun j hj => hdeliv j (by omega)) (fun j hj => hfail j (by omega))
  have h15 := hst 15 (le_refl 15)
  have hdrop := iteration_forget env hq key ((iteration env)^[15] w) (hdeliv 15 (le_refl 15))
    (Or.inr (by rw [h15.1]; unfold maxRetries; norm_num))
  rw [← Function.iterate_succ_apply' (iteration env) 15 w] at hdrop
  refine ⟨?_, h15.2.2, by rw [h15.1]; norm_num, hdrop.1, hdrop.2.1, hdrop.2.2⟩
  intro j hj
  have hc := (hst j (by omega)).1
  have hstep := iteration_failed_retry env hq key ((iteration env)^[j] w)
    (hdeliv j (by omega)) (hfail j (by omega)) (by rw [hc]; unfold maxRetries; omega)
  rw [← Function.iterate_succ_apply' (iteration env) j w] at hstep
  exact hstep.1

/-- C3: under the work queue contract, for a key that starts with retry count 0, is
handed out by `Get` at each of the iterations looked at and whose `sync` fails every
time, the failed attempt number `j + 1` (for `j < 15`) finds the retry count at `j` and
calls `AddRateLimited(key)`; that makes 15 `AddRateLimited` calls and no `Forget` before
the 16th attempt, whose only call on the key is the `Forget` that drops it, and still 15
after it. The retry counts 0 to 14 of those calls are the 15 delays listed next to
`maxRetries`, from 5ms to 81920ms. In any world, `handleErr` on a key whose count is
already `maxRetries` or more makes no `AddRateLimited` call. -/
theorem maxRetries_requeues_before_drop (env : Env Q Obj RObj Err Ctx)
    (hq : QueueContract env.queue) (key : Key) (w : World Q RObj Err Ctx)
    (h0 : env.queue.numRequeues w.queue key = 0)
    (hdeliv : ∀ j, j ≤ 15 → (env.queue.get ((iteration env)^[j] w).queue).1 = (key, false))
    (hfail : ∀ j, j ≤ 15 → (nextSync env ((iteration env)^[j] w)).1 ≠ none) :
    (∀ j, j < 15 →
      env.queue.numRequeues ((iteration env)^[j] w).queue key = (j : Int) ∧
      queueMutations (newCalls ((iteration env)^[j] w) ((iteration env)^[j + 1] w)) =
        [Call.get key false, Call.addRateLimited key, Call.done key]) ∧
    (newCalls w ((iteration env)^[15] w)).countP Call.isAddRateLimited = 15 ∧
    (newCalls w ((iteration env)^[15] w)).countP Call.isForget = 0 ∧
    queueMutations (newCalls ((iteration env)^[15] w) ((iteration env)^[16] w)) =
      [Call.get key false, Call.forget key, Call.done key] ∧
    (newCalls w ((iteration env)^[16] w)).countP Call.isAddRateLimited = 15 ∧
    (newCalls w ((iteration env)^[16] w)).countP Call.isForget = 1 ∧
    (List.range 15).map requeueDelayMs =
      [5, 10, 20, 40, 80, 160, 320, 640, 1280, 2560, 5120, 10240, 20480, 40960, 81920] ∧
    (∀ (err : Option Err) (key2 : Key) (w2 : World Q RObj Err Ctx),
      maxRetries ≤ env.queue.numRequeues w2.queue key2 →
      (newCalls w2 (handleErr env err key2 w2)).countP Call.isAddRateLimited = 0) := by
  have hst := failing_streak env hq key w 15 (le_refl 15) h0
    (fun j hj => hdeliv j (by omega)) (fun j hj => hfail j (by omega))
  have h15 := hst 15 (le_refl 15)
  have hdrop := iteration_forget env hq key ((iteration env)^[15] w) (hdeliv 15 (le_refl 15))
    (Or.inr (by rw [h15.1]; unfold maxRetries; norm_num))
  rw [← Function.iterate_succ_apply' (iteration env) 15 w] at hdrop
  refine ⟨?_, h15.2.1, h15.2.2, hdrop.1, ?_, ?_, by decide, ?_⟩
  · intro j hj
    have hc := (hst j (by omega)).1
    have hstep := iteration_failed_retry env hq key ((iteration env)^[j] w)
      (hdeliv j (by omega)) (hfail j (by omega)) (by rw [hc]; unfold maxRetries; omega)
    rw [← Function.iterate_succ_apply' (iteration env) j w] at hstep
    exact ⟨hc, hstep.1⟩
  · rw [newCalls_iterate_succ, List.countP_append, h15.2.1,
      countP_isAddRateLimited (newCalls _ _), hdrop.1]
    rfl
  · rw [newCalls_iterate_succ, List.countP_append, h15.2.2,
      countP_isForget (newCalls _ _), hdrop.1]
    rfl
  · intro err key2 w2 hge
    rw [countP_isAddRateLimited, (handleErr_forget env err key2 w2 (Or.inr hge)).1]
    rfl

/-- C4: under the work queue contract, for `n` up to 15 (so for every `n < 15`) and a key
that starts with retry count 0, is handed out by `Get` and found in the indexer at each
of the `n + 1` iterations, and whose `sync` fails on calls 1 to `n` and succeeds on call
`n + 1`, those iterations make exactly `n` `AddRateLimited` calls, exactly one `Forget`
call and exactly `n + 1` handler invocations; the last iteration forgets the key and does
not re-enqueue it, and the retry count is 0 at the end. -/
theorem fail_then_succeed_trace (env : Env Q Obj RObj Err Ctx)
    (hq : QueueContract env.queue) (key : Key) (w : World Q RObj Err Ctx) (n : Nat)
    (hn : n ≤ 15)
    (h0 : env.queue.numRequeues w.queue key = 0)
    (hdeliv : ∀ j, j ≤ n → (env.queue.get ((iteration env)^[j] w).queue).1 = (key, false))
    (hpresent : ∀ j, j ≤ n →
      (env.getByKey (queueGet env ((iteration env)^[j] w)).2.trace key).err = none ∧
      (env.getByKey (queueGet env ((iteration env)^[j] w)).2.trace key).exists_ = true)
    (hfail : ∀ j, j < n → (nextSync env ((iteration env)^[j] w)).1 ≠ none)
    (hok : (nextSync env ((iteration env)^[n] w)).1 = none) :
    (newCalls w ((iteration env)^[n + 1] w)).countP Call.isAddRateLimited = n ∧
    (newCalls w ((iteration env)^[n + 1] w)).countP Call.isForget = 1 ∧
    (newCalls w ((iteration env)^[n + 1] w)).countP Call.isHandle = n + 1 ∧
    queueMutations (newCalls ((iteration env)^[n] w) ((iteration env)^[n + 1] w)) =
      [Call.get key false, Call.forget key, Call.done key] ∧
    env.queue.numRequeues ((iteration env)^[n + 1] w).queue key = 0 := by
  have hst := failing_streak env hq key w n hn h0
    (fun j hj => hdeliv j (by omega)) hfail
  have hlast := hst n (le_refl n)
  have hdone := iteration_forget env hq key ((iteration env)^[n] w) (hdeliv n (le_refl n))
    (Or.inl hok)
  rw [← Function.iterate_succ_apply' (iteration env) n w] at hdone
  have hhandle : ∀ j, j ≤ n + 1 →
      (newCalls w ((iteration env)^[j] w)).countP Call.isHandle = j := by
    intro j
    induction j with
    | zero => intro _; simp [newCalls]
    | succ j ih =>
      intro hj
      have hd := hdeliv j (by omega)
      have hk : nextKey env ((iteration env)^[j] w) = key := by simp [nextKey, hd]
      have hquit : nextQuit env ((iteration env)^[j] w) = false := by simp [nextQuit, hd]
      have hp := hpresent j (by omega)
      rw [← hk] at hp
      have h1 := iteration_handle_count env ((iteration env)^[j] w) hquit hp.1 hp.2
      rw [← Function.iterate_succ_apply' (iteration env) j w] at h1
      rw [newCalls_iterate_succ, List.countP_append, ih (by omega), h1]
  refine ⟨?_, ?_, hhandle (n + 1) (le_refl _), hdone.1, hdone.2.2⟩
  · rw [newCalls_iterate_succ, List.countP_append, hlast.2.1,
      countP_isAddRateLimited (newCalls _ _), hdone.1]
    rfl
  · rw [newCalls_iterate_succ, List.countP_append, hlast.2.2,
      countP_isForget (newCalls _ _), hdone.1]
    rfl

/-- C10: under the work queue contract, for a key with any retry count (so for every
count `n > 0`), `handleErr` with a nil error leaves the count at 0, and so does the whole
iteration in which the key is handed out and `sync` succeeds. A streak of failures that
starts later, in any world `w1` where the count is still the one that iteration left, is
handled as for a fresh key, whatever the count was before the success: each of its first
15 failed attempts calls `AddRateLimited`, the 16th forgets the key, and 15
`AddRateLimited` calls were made in all. -/
theorem success_resets_history (env : Env Q Obj RObj Err Ctx)
    (hq : QueueContract env.queue) (key : Key) (w w1 : World Q RObj Err Ctx)
    (hget : (env.queue.get w.queue).1 = (key, false))
    (hok : (nextSync env w).1 = none)
    (hsame : env.queue.numRequeues w1.queue key =
      env.queue.numRequeues (iteration env w).queue key)
    (hdeliv : ∀ j, j ≤ 15 → (env.queue.get ((iteration env)^[j] w1).queue).1 = (key, false))
    (hfail : ∀ j, j ≤ 15 → (nextSync env ((iteration env)^[j] w1)).1 ≠ none) :
    env.queue.numRequeues (handleErr env none key w).queue key = 0 ∧
    env.queue.numRequeues (iteration env w).queue key = 0 ∧
    (∀ j, j < 15 →
      queueMutations (newCalls ((iteration env)^[j] w1) ((iteration env)^[j + 1] w1)) =
        [Call.get key false, Call.addRateLimited key, Call.done key]) ∧
    queueMutations (newCalls ((iteration env)^[15] w1) ((iteration env)^[16] w1)) =
      [Call.get key false, Call.forget key, Call.done key] ∧
    (newCalls w1 ((iteration env)^[16] w1)).countP Call.isAddRateLimited = 15 := by
  have hreset := iteration_forget env hq key w hget (Or.inl hok)
  have hst := failing_streak env hq key w1 15 (le_refl 15) (hsame.trans hreset.2.2)
    (fun j hj => hdeliv j (by omega)) (fun j hj => hfail j (by omega))
  have h15 := hst 15 (le_refl 15)
  have hdrop := iteration_forget env hq key ((iteration env)^[15] w1)
    (hdeliv 15 (le_refl 15)) (Or.inr (by rw [h15.1]; unfold maxRetries; norm_num))
  rw [← Function.iterate_succ_apply' (iteration env) 15 w1] at hdrop
  refine ⟨?_, hreset.2.2, ?_, hdrop.1, ?_⟩
  · rw [(handleErr_forget env none key w (Or.inl rfl)).2, hq.numRequeues_forget]
  · intro j hj
    have hc := (hst j (by omega)).1
    have hstep := iteration_failed_retry env hq key ((iteration env)^[j] w1)
      (hdeliv j (by omega)) (hfail j (by omega)) (by rw [hc]; unfold maxRetries; omega)
    rw [← Function.iterate_succ_apply' (iteration env) j w1] at hstep
    exact hstep.1
  · rw [newCalls_iterate_succ, List.countP_append, h15.2.1,
      countP_isAddRateLimited (newCalls _ _), hdrop.1]
    rfl

end Claims

section Examples

set_option maxRecDepth 16000

/-- C1 at concrete inputs: a nil error forgets the key, an error at retry count 0
re-enqueues it, an error at retry count 15 forgets it. -/
theorem handleErr_one_queue_operation_witness :
    queueMutations (newCalls (exampleWorld ["ns1/objA"] 3)
      (handleErr (exampleEnv presentLookup (fun _ => none)) none "ns1/objA"
        (exampleWorld ["ns1/objA"] 3))) = [Call.forget "ns1/objA"] ∧
    queueMutations (newCalls (exampleWorld ["ns1/objA"] 0)
      (handleErr (exampleEnv presentLookup (fun _ => none)) (some "boom") "ns1/objA"
        (exampleWorld ["ns1/objA"] 0))) = [Call.addRateLimited "ns1/objA"] ∧
    queueMutations (newCalls (exampleWorld ["ns1/objA"] 15)
      (handleErr (exampleEnv presentLookup (fun _ => none)) (some "boom") "ns1/objA"
        (exampleWorld ["ns1/objA"] 15))) = [Call.forget "ns1/objA"] :=
  ⟨((handleErr_one_queue_operation (exampleEnv presentLookup (fun _ => none)) none
      "ns1/objA" (exampleWorld ["ns1/objA"] 3)).2.1 rfl).1,
   ((handleErr_one_queue_operation (exampleEnv presentLookup (fun _ => none)) (some "boom")
      "ns1/objA" (exampleWorld ["ns1/objA"] 0)).2.2.1 (by simp) (by decide)).1,
   ((handleErr_one_queue_operation (exampleEnv presentLookup (fun _ => none)) (some "boom")
      "ns1/objA" (exampleWorld ["ns1/objA"] 15)).2.2.2.1 (by simp) (by decide)).1⟩

/-- C5 at a concrete input: a key the indexer does not hold, with retry count 3. -/
theorem sync_absent_is_noop_witness :
    (absentLookup "ns1/objA").err = none ∧ (absentLookup "ns1/objA").exists_ = false ∧
    (sync (exampleEnv absentLookup (fun _ => some "injected")) "ns1/objA"
      (exampleWorld ["ns1/objA"] 3)).1 = none ∧
    (newCalls (exampleWorld ["ns1/objA"] 3)
      (sync (exampleEnv absentLookup (fun _ => some "injected")) "ns1/objA"
        (exampleWorld ["ns1/objA"] 3)).2).countP Call.isHandle = 0 :=
  have h := sync_absent_is_noop (exampleEnv absentLookup (fun _ => some "injected"))
    "ns1/objA" (exampleWorld ["ns1/objA"] 3) rfl rfl
  ⟨rfl, rfl, h.1, h.2.2.1⟩

/-- C6 at a concrete input: a key the indexer holds, and a handler that fails. -/
theorem sync_found_invokes_handler_once_witness :
    (presentLookup "ns1/objA").err = none ∧ (presentLookup "ns1/objA").exists_ = true ∧
    newCalls (exampleWorld ["ns1/objA"] 0)
      (sync (exampleEnv presentLookup (fun _ => some "injected")) "ns1/objA"
        (exampleWorld ["ns1/objA"] 0)).2 =
      [Call.getByKey "ns1/objA", Call.handle () { object := "ns1/objA", deleted := false }] ∧
    (sync (exampleEnv presentLookup (fun _ => some "injected")) "ns1/objA"
      (exampleWorld ["ns1/objA"] 0)).1 = some "injected" :=
  have h := sync_found_invokes_handler_once
    (exampleEnv presentLookup (fun _ => some "injected")) "ns1/objA"
    (exampleWorld ["ns1/objA"] 0) rfl rfl
  ⟨rfl, rfl, h.1, h.2.2.1⟩

/-- C7 at a concrete input: a failing indexer, with the key at retry count 0. -/
theorem sync_lookup_error_propagates_witness :
    (failingLookup "ns1/objA").err = some "cache fault" ∧
    (sync (exampleEnv failingLookup (fun _ => none)) "ns1/objA"
      (exampleWorld ["ns1/objA"] 0)).1 = some "cache fault" ∧
    newCalls (exampleWorld ["ns1/objA"] 0)
      (sync (exampleEnv failingLookup (fun _ => none)) "ns1/objA"
        (exampleWorld ["ns1/objA"] 0)).2 = [Call.getByKey "ns1/objA"] ∧
    queueMutations (newCalls
      (sync (exampleEnv failingLookup (fun _ => none)) "ns1/objA"
        (exampleWorld ["ns1/objA"] 0)).2
      (handleErr (exampleEnv failingLookup (fun _ => none))
        (sync (exampleEnv failingLookup (fun _ => none)) "ns1/objA"
          (exampleWorld ["ns1/objA"] 0)).1 "ns1/objA"
        (sync (exampleEnv failingLookup (fun _ => none)) "ns1/objA"
          (exampleWorld ["ns1/objA"] 0)).2)) = [Call.addRateLimited "ns1/objA"] :=
  have h := sync_lookup_error_propagates (exampleEnv failingLookup (fun _ => none))
    "ns1/objA" (exampleWorld ["ns1/objA"] 0) "cache fault" rfl
  ⟨rfl, h.1, h.2.1, h.2.2.2.2.1 (by decide)⟩

/-- C8 at a concrete input: one key in the queue, found and handled without error. -/
theorem processNextItem_done_exactly_once_witness :
    nextQuit (exampleEnv presentLookup (fun _ => none)) (exampleWorld ["ns1/objA"] 0) = false ∧
    (processNextItem (exampleEnv presentLookup (fun _ => none))
      (exampleWorld ["ns1/objA"] 0)).1 = true ∧
    (newCalls (exampleWorld ["ns1/objA"] 0)
      (iteration (exampleEnv presentLookup (fun _ => none))
        (exampleWorld ["ns1/objA"] 0))).countP Call.isDone = 1 :=
  have h := processNextItem_done_exactly_once (exampleEnv presentLookup (fun _ => none))
    (exampleWorld ["ns1/objA"] 0) (by decide)
  ⟨by decide, h.1, h.2.2.2.1⟩

/-- C9 at a concrete input: two keys in the queue, then shutdown. The worker returns
with fuel 3 and is still running with fuel 2. -/
theorem runWorker_cooperative_shutdown_witness :
    runWorker (exampleEnv presentLookup (fun _ => none)) 3
      (exampleWorld ["ns1/objA", "ns1/objB"] 0) =
      some ((iteration (exampleEnv presentLookup (fun _ => none)))^[3]
        (exampleWorld ["ns1/objA", "ns1/objB"] 0)) ∧
    runWorker (exampleEnv presentLookup (fun _ => none)) 2
      (exampleWorld ["ns1/objA", "ns1/objB"] 0) = none ∧
    (newCalls (exampleWorld ["ns1/objA", "ns1/objB"] 0)
      ((iteration (exampleEnv presentLookup (fun _ => none)))^[3]
        (exampleWorld ["ns1/objA", "ns1/objB"] 0))).countP Call.isGet = 3 :=
  have h := (runWorker_cooperative_shutdown (exampleEnv presentLookup (fun _ => none))).2.2.1
    2 (exampleWorld ["ns1/objA", "ns1/objB"] 0) (by decide) (by decide)
  ⟨h.1 3 (by decide), h.2.1 2 (by decide), h.2.2.2.2⟩

/-- C2 as stated fails on the reference queue: the key `ns1/objA` starts with retry
count 0 and its handler fails every time. After 15 failed attempts the handler was
invoked 15 times and `Forget` was never called, the 15th attempt re-enqueued the key, the
retry count is 15 and not 0, and the next `Get` hands the key out again. -/
theorem fifteen_failures_do_not_drop :
    (exampleEnv presentLookup (fun _ => some "injected")).queue.numRequeues
      (exampleWorld ["ns1/objA"] 0).queue "ns1/objA" = 0 ∧
    (∀ j, j ≤ 15 →
      (nextSync (exampleEnv presentLookup (fun _ => some "injected"))
        ((iteration (exampleEnv presentLookup (fun _ => some "injected")))^[j]
          (exampleWorld ["ns1/objA"] 0))).1 ≠ none) ∧
    (newCalls (exampleWorld ["ns1/objA"] 0)
      ((iteration (exampleEnv presentLookup (fun _ => some "injected")))^[15]
        (exampleWorld ["ns1/objA"] 0))).countP Call.isHandle = 15 ∧
    (newCalls (exampleWorld ["ns1/objA"] 0)
      ((iteration (exampleEnv presentLookup (fun _ => some "injected")))^[15]
        (exampleWorld ["ns1/objA"] 0))).countP Call.isForget = 0 ∧
    queueMutations (newCalls
      ((iteration (exampleEnv presentLookup (fun _ => some "injected")))^[14]
        (exampleWorld ["ns1/objA"] 0))
      ((iteration (exampleEnv presentLookup (fun _ => some "injected")))^[15]
        (exampleWorld ["ns1/objA"] 0))) =
      [Call.get "ns1/objA" false, Call.addRateLimited "ns1/objA", Call.done "ns1/objA"] ∧
    (exampleEnv presentLookup (fun _ => some "injected")).queue.numRequeues
      ((iteration (exampleEnv presentLookup (fun _ => some "injected")))^[15]
        (exampleWorld ["ns1/objA"] 0)).queue "ns1/objA" = 15 ∧
    (refQueue.get ((iteration (exampleEnv presentLookup (fun _ => some "injected")))^[15]
      (exampleWorld ["ns1/objA"] 0)).queue).1 = ("ns1/objA", false) := by
  decide

/-- C2 as amended, at a concrete input: the key `ns1/objA` on the reference queue with a
handler that fails every time is dropped by the 16th failed attempt. -/
theorem key_dropped_at_sixteenth_failure_witness :
    queueMutations (newCalls
      ((iteration (exampleEnv presentLookup (fun _ => some "injected")))^[15]
        (exampleWorld ["ns1/objA"] 0))
      ((iteration (exampleEnv presentLookup (fun _ => some "injected")))^[16]
        (exampleWorld ["ns1/objA"] 0))) =
      [Call.get "ns1/objA" false, Call.forget "ns1/objA", Call.done "ns1/objA"] ∧
    (exampleEnv presentLookup (fun _ => some "injected")).queue.numRequeues
      ((iteration (exampleEnv presentLookup (fun _ => some "injected")))^[16]
        (exampleWorld ["ns1/objA"] 0)).queue "ns1/objA" = 0 :=
  have h := key_dropped_at_sixteenth_failure
    (exampleEnv presentLookup (fun _ => some "injected")) refQueue_contract "ns1/objA"
    (exampleWorld ["ns1/objA"] 0) (by decide) (by decide) (by decide)
  ⟨h.2.2.2.1, h.2.2.2.2.2⟩

/-- C3 at a concrete input: the key `ns1/objA` on the reference queue with a handler that
fails every time gets 15 `AddRateLimited` calls and then one `Forget`. -/
theorem maxRetries_requeues_before_drop_witness :
    (newCalls (exampleWorld ["ns1/objA"] 0)
      ((iteration (exampleEnv presentLookup (fun _ => some "injected")))^[16]
        (exampleWorld ["ns1/objA"] 0))).countP Call.isAddRateLimited = 15 ∧
    (newCalls (exampleWorld ["ns1/objA"] 0)
      ((iteration (exampleEnv presentLookup (fun _ => some "injected")))^[16]
        (exampleWorld ["ns1/objA"] 0))).countP Call.isForget = 1 :=
  have h := maxRetries_requeues_before_drop
    (exampleEnv presentLookup (fun _ => some "injected")) refQueue_contract "ns1/objA"
    (exampleWorld ["ns1/objA"] 0) (by decide) (by decide) (by decide)
  ⟨h.2.2.2.2.1, h.2.2.2.2.2.1⟩

/-- C4 at the input of the specification: the key `ns1/objA`, 14 failures and then a
success give 14 `AddRateLimited` calls, one `Forget` call and 15 handler invocations,
and the retry count is 0 at the end. -/
theorem fail_then_succeed_trace_witness :
    (newCalls (exampleWorld ["ns1/objA"] 0)
      ((iteration (exampleEnv presentLookup
        (fun i => if i < 14 then some "injected" else none)))^[15]
        (exampleWorld ["ns1/objA"] 0))).countP Call.isAddRateLimited = 14 ∧
    (newCalls (exampleWorld ["ns1/objA"] 0)
      ((iteration (exampleEnv presentLookup
        (fun i => if i < 14 then some "injected" else none)))^[15]
        (exampleWorld ["ns1/objA"] 0))).countP Call.isForget = 1 ∧
    (newCalls (exampleWorld ["ns1/objA"] 0)
      ((iteration (exampleEnv presentLookup
        (fun i => if i < 14 then some "injected" else none)))^[15]
        (exampleWorld ["ns1/objA"] 0))).countP Call.isHandle = 15 ∧
    (exampleEnv presentLookup
        (fun i => if i < 14 then some "injected" else none)).queue.numRequeues
      ((iteration (exampleEnv presentLookup
        (fun i => if i < 14 then some "injected" else none)))^[15]
        (exampleWorld ["ns1/objA"] 0)).queue "ns1/objA" = 0 :=
  have h := fail_then_succeed_trace
    (exampleEnv presentLookup (fun i => if i < 14 then some "injected" else none))
    refQueue_contract "ns1/objA" (exampleWorld ["ns1/objA"] 0) 14 (by decide) (by decide)
    (by decide) (by decide) (by decide) (by decide)
  ⟨h.1, h.2.1, h.2.2.1, h.2.2.2.2⟩

/-- C10 at a concrete input: the key `ns1/objA` with retry count 7 succeeds once, is
added to the queue again and then fails every time; the count is 0 after the success and
the streak that follows gets the 15 `AddRateLimited` calls of a fresh key. -/
theorem success_resets_history_witness :
    (exampleEnv presentLookup
        (fun i => if i = 0 then none else some "injected")).queue.numRequeues
      (exampleWorld ["ns1/objA"] 7).queue "ns1/objA" = 7 ∧
    (exampleEnv presentLookup
        (fun i => if i = 0 then none else some "injected")).queue.numRequeues
      (iteration (exampleEnv presentLookup
        (fun i => if i = 0 then none else some "injected"))
        (exampleWorld ["ns1/objA"] 7)).queue "ns1/objA" = 0 ∧
    (newCalls (requeuedWorld "ns1/objA" 7)
      ((iteration (exampleEnv presentLookup
        (fun i => if i = 0 then none else some "injected")))^[16]
        (requeuedWorld "ns1/objA" 7))).countP Call.isAddRateLimited = 15 :=
  have h := success_resets_history
    (exampleEnv presentLookup (fun i => if i = 0 then none else some "injected"))
    refQueue_contract "ns1/objA" (exampleWorld ["ns1/objA"] 7) (requeuedWorld "ns1/objA" 7)
    (by decide) (by decide) (by decide) (by decide) (by decide)
  ⟨by decide, h.2.1, h.2.2.2.2⟩

end Examples

end Informer
